import Mathlib

/-!
Verification of the RSbus feedback-decoder library.

The development shallowly embeds the C++ sources:
* `FIFO` with `push`, `pop`, `size`, `empty` (support_fifo / sup_isr_hw_tcb.cpp);
* the frame encoder `format_nibble` / `send8bits` of RSbusConnection (RSbus.cpp);
* the hand-off `sendNibble` and the per-connection state machine
  `checkConnection` (RSbus.cpp);
* the cycle synchronizer `resetAddressPolled` and the retransmission policy
  `triggerRetransmission` of RSbusHardware (sup_isr_sw.cpp).

Machine bytes are modelled as `Nat` with explicit `% 256` where the C code
uses `uint8_t` arithmetic that can wrap.  The two global objects
`rsbusHardware : RSbusHardware` and `rsISR : RSbusIsr` are combined into one
record `SysState`.
-/

set_option maxRecDepth 16384

namespace RSbus

/-! ### FIFO (support_fifo.h, implementation in sup_isr_hw_tcb.cpp) -/

def FIFO_SIZE : Nat := 16

structure FIFO where
  head : Nat
  tail : Nat
  numElements : Nat
  buffer : List Nat
deriving DecidableEq

/-- FIFO constructor: head, tail and numElements start at 0; the `uint8_t
buffer[FIFO_SIZE]` array is modelled as a 16 element list. -/
def FIFO.init : FIFO :=
  { head := 0, tail := 0, numElements := 0, buffer := List.replicate FIFO_SIZE 0 }

def FIFO.size (f : FIFO) : Nat := f.numElements

/-- FIFO::push: returns unchanged when full, otherwise increments the size,
moves the tail (mod FIFO_SIZE) when more than one element is stored, and
writes the data at the tail position. -/
def FIFO.push (f : FIFO) (data : Nat) : FIFO :=
  if f.numElements = FIFO_SIZE then f
  else
    let ne := f.numElements + 1
    let tl := if 1 < ne then (f.tail + 1) % FIFO_SIZE else f.tail
    { f with numElements := ne, tail := tl, buffer := f.buffer.set tl data }

/-- FIFO::pop: returns 0 and leaves the state unchanged when empty, otherwise
decrements the size, reads the head position and moves the head
(mod FIFO_SIZE) when at least one element remains. -/
def FIFO.pop (f : FIFO) : Nat × FIFO :=
  if f.numElements = 0 then (0, f)
  else
    let ne := f.numElements - 1
    let data := f.buffer.getD f.head 0
    let hd := if 1 ≤ ne then (f.head + 1) % FIFO_SIZE else f.head
    (data, { f with numElements := ne, head := hd })

/-- FIFO::empty: resets head, tail and numElements (the buffer is untouched). -/
def FIFO.empty (f : FIFO) : FIFO :=
  { f with head := 0, tail := 0, numElements := 0 }

/-- Abstraction of the ring buffer: the stored bytes, oldest first. -/
def FIFO.toList (f : FIFO) : List Nat :=
  (List.range f.numElements).map (fun i => f.buffer.getD ((f.head + i) % FIFO_SIZE) 0)

/-- Structural invariant of the ring buffer, maintained by all operations:
indices stay below FIFO_SIZE, the buffer keeps its 16 slots, and the tail
points at the most recently stored element. -/
def FIFO.WellFormed (f : FIFO) : Prop :=
  f.buffer.length = FIFO_SIZE ∧ f.numElements ≤ FIFO_SIZE ∧
  f.head < FIFO_SIZE ∧ f.tail < FIFO_SIZE ∧
  (f.numElements = 0 → f.tail = f.head) ∧
  (1 ≤ f.numElements → f.tail = (f.head + (f.numElements - 1)) % FIFO_SIZE)

instance (f : FIFO) : Decidable f.WellFormed := by
  unfold FIFO.WellFormed; infer_instance

/-- States reachable from the constructor through the public operations. -/
inductive FIFO.Reachable : FIFO → Prop
  | init : FIFO.Reachable FIFO.init
  | push (f : FIFO) (d : Nat) : FIFO.Reachable f → FIFO.Reachable (f.push d)
  | pop (f : FIFO) : FIFO.Reachable f → FIFO.Reachable (f.pop).2
  | empty (f : FIFO) : FIFO.Reachable f → FIFO.Reachable f.empty

/-! ### Frame encoder (RSbus.cpp) -/

inductive Decoder_t | Switch | Feedback
deriving DecidableEq

inductive Nibble_t | HighBits | LowBits
deriving DecidableEq

/-- Bit positions of the RS-bus message (RSbus.cpp). -/
def NIBBLEBIT : Nat := 3
def TT_BIT_0 : Nat := 2
def TT_BIT_1 : Nat := 1
def PARITY : Nat := 0

/-- Number of set bits among bits 0..7 of a byte. -/
def popcount8 (v : Nat) : Nat :=
  ((List.range 8).filter (fun i => v.testBit i)).length

/-- avr-libc util parity.h `parity_even_bit`: returns 1 when the byte has an
odd number of bits set (the bit that would make the total parity even). -/
def parity_even_bit (v : Nat) : Nat := popcount8 v % 2

/-- Pure part of RSbusConnection::format_nibble: sets the TT bits according to
the decoder type and then the parity bit.  The two `if` statements of the
source are kept in sequence. -/
def formatByte (t : Decoder_t) (value0 : Nat) : Nat :=
  let value1 :=
    if t = Decoder_t.Switch then value0 ||| (1 <<< TT_BIT_0) ||| (0 <<< TT_BIT_1) else value0
  let value2 :=
    if t = Decoder_t.Feedback then value1 ||| (0 <<< TT_BIT_0) ||| (1 <<< TT_BIT_1) else value1
  if parity_even_bit value2 ≠ 0 then value2 ||| (0 <<< PARITY)
  else value2 ||| (1 <<< PARITY)

/-- First (low order) data nibble built by RSbusConnection::send8bits. -/
def dataNibble1 (value : Nat) : Nat :=
  ((value &&& 0b00000001) <<< 7) ||| ((value &&& 0b00000010) <<< 5) |||
  ((value &&& 0b00000100) <<< 3) ||| ((value &&& 0b00001000) <<< 1) |||
  (0 <<< NIBBLEBIT)

/-- Second (high order) data nibble built by RSbusConnection::send8bits. -/
def dataNibble2 (value : Nat) : Nat :=
  ((value &&& 0b00010000) <<< 3) ||| ((value &&& 0b00100000) <<< 1) |||
  ((value &&& 0b01000000) >>> 1) ||| ((value &&& 0b10000000) >>> 3) |||
  (1 <<< NIBBLEBIT)

/-! ### Shared state: the globals `rsbusHardware` and `rsISR` -/

/-- Combined state of the two global objects `RSbusHardware rsbusHardware`
and `volatile RSbusIsr rsISR`.  The `uint8_t` counters `parityErrors`,
`pulseCountErrors` and `timeIdle` wrap modulo 256. -/
structure SysState where
  rsSignalIsOK : Bool
  parityErrors : Nat
  pulseCountErrors : Nat
  parityErrorHandling : Nat
  pulseCountErrorHandling : Nat
  data2sendFlag : Bool
  data2send : Nat
  address2use : Nat
  data4IsrFlag : Bool
  dataWasSendFlag : Bool
  flagPulseCount : Bool
  flagParity : Bool
  timeIdle : Nat
  lastPulseCnt : Nat
  addressPolled : Nat
deriving DecidableEq

/-- RSbusHardware::triggerRetransmission (sup_isr_sw.cpp): interprets the
strategy code, possibly clearing `rsSignalIsOK`, and cancels the byte staged
for the ISR whenever the call ends with the flag cleared. -/
def triggerRetransmission (s : SysState) (strategy : Nat) (justTransmitted : Bool) : SysState :=
  let s1 :=
    if strategy = 0 then s
    else if strategy = 1 then
      (if justTransmitted then { s with rsSignalIsOK := false } else s)
    else if strategy = 2 then { s with rsSignalIsOK := false }
    else s
  if s1.rsSignalIsOK = false then { s1 with data4IsrFlag := false } else s1

/-- RSbusHardware::resetAddressPolled (sup_isr_sw.cpp): one 2ms check.  If the
pulse counter did not change, the idle counter is incremented and dispatched
on; otherwise the last count is stored and the idle counter restarts at 1. -/
def resetAddressPolled (s : SysState) : SysState :=
  let currentCnt := s.addressPolled
  if currentCnt = s.lastPulseCnt then
    let s := { s with timeIdle := (s.timeIdle + 1) % 256 }
    if s.timeIdle = 3 then
      let s := { s with
        flagPulseCount := s.dataWasSendFlag,
        flagParity := s.dataWasSendFlag,
        dataWasSendFlag := false }
      let s :=
        if s.addressPolled = 130 then
          let s := { s with rsSignalIsOK := true }
          if s.data2sendFlag then { s with data4IsrFlag := true } else s
        else
          if s.rsSignalIsOK then
            let s := { s with pulseCountErrors := (s.pulseCountErrors + 1) % 256 }
            triggerRetransmission s s.pulseCountErrorHandling s.flagPulseCount
          else s
      { s with addressPolled := 0, lastPulseCnt := 0 }
    else if s.timeIdle = 5 then
      if s.rsSignalIsOK then
        let s := { s with parityErrors := (s.parityErrors + 1) % 256 }
        triggerRetransmission s s.parityErrorHandling s.flagParity
      else s
    else if s.timeIdle = 7 then
      let s :=
        if s.rsSignalIsOK then { s with parityErrors := (s.parityErrors + 255) % 256 } else s
      { s with rsSignalIsOK := false, data4IsrFlag := false }
    else s
  else
    { s with lastPulseCnt := currentCnt, timeIdle := 1 }

/-! ### Per-address connection (RSbus.cpp) -/

inductive Status
  | notSynchronised | feedbackIsNeeded | feedbackNibble1 | feedbackNibble2 | connected
deriving DecidableEq

structure RSbusConnection where
  address : Nat
  type : Decoder_t
  status : Status
  feedbackRequested : Bool
  forwardErrorCorrection : Nat
  my_fifo : FIFO
deriving DecidableEq

/-- RSbusConnection::format_nibble: formats the byte (TT bits and parity) and
pushes it on the connection FIFO. -/
def format_nibble (c : RSbusConnection) (value : Nat) : RSbusConnection :=
  { c with my_fifo := c.my_fifo.push (formatByte c.type value) }

/-- Loop body of RSbusConnection::send8bits, iterated
`forwardErrorCorrection + 1` times: pushes the formatted low nibble and then
the formatted high nibble. -/
def sendLoop (c : RSbusConnection) (n1 n2 : Nat) : Nat → RSbusConnection
  | 0 => c
  | k + 1 => sendLoop (format_nibble (format_nibble c n1) n2) n1 n2 k

/-- RSbusConnection::send8bits: clears `feedbackRequested`, builds the two
data nibbles and stores `forwardErrorCorrection + 1` copies of each. -/
def send8bits (c : RSbusConnection) (value : Nat) : RSbusConnection :=
  let c1 := { c with feedbackRequested := false }
  sendLoop c1 (dataNibble1 value) (dataNibble2 value) (c.forwardErrorCorrection + 1)

/-- RSbusConnection::sendNibble: hands the oldest FIFO byte to the ISR when
there is data, the ISR slot is free and the address is valid; returns 1 on
success and 0 otherwise. -/
def sendNibble (c : RSbusConnection) (s : SysState) : Nat × RSbusConnection × SysState :=
  if 0 < c.my_fifo.size then
    if s.data2sendFlag = false then
      if 0 < c.address ∧ c.address ≤ 128 then
        let popped := c.my_fifo.pop
        (1, { c with my_fifo := popped.2 },
          { s with address2use := c.address, data2send := popped.1, data2sendFlag := true })
      else (0, c, s)
    else (0, c, s)
  else (0, c, s)

/-- RSbusConnection::checkConnection: the per-connection state machine, gated
on `rsSignalIsOK`. -/
def checkConnection (c : RSbusConnection) (s : SysState) : RSbusConnection × SysState :=
  if s.rsSignalIsOK then
    match c.status with
    | Status.notSynchronised =>
        ({ c with status := Status.feedbackIsNeeded, feedbackRequested := true }, s)
    | Status.feedbackIsNeeded =>
        (if c.feedbackRequested = false then { c with status := Status.feedbackNibble1 } else c, s)
    | Status.feedbackNibble1 =>
        let r := sendNibble c s
        (if r.1 ≠ 0 then { r.2.1 with status := Status.feedbackNibble2 } else r.2.1, r.2.2)
    | Status.feedbackNibble2 =>
        let r := sendNibble c s
        (if r.1 ≠ 0 then { r.2.1 with status := Status.connected } else r.2.1, r.2.2)
    | Status.connected =>
        let r := sendNibble c s
        (r.2.1, r.2.2)
  else
    ({ c with status := Status.notSynchronised, my_fifo := c.my_fifo.empty },
      { s with data2sendFlag := false })

/-- Repeated `checkConnection` calls; the boolean list gives the value of
`rsSignalIsOK` (set by the synchronizer) before each call. -/
def runConnection (c : RSbusConnection) (s : SysState) : List Bool → RSbusConnection × SysState
  | [] => (c, s)
  | b :: bs =>
      let r := checkConnection c { s with rsSignalIsOK := b }
      runConnection r.1 r.2 bs

/-- Connection states from which no byte can be handed off before the host
calls send8bits: not yet synchronised, or waiting for feedback data. -/
def NoHandoff (c : RSbusConnection) : Prop :=
  c.status = Status.notSynchronised ∨
    (c.status = Status.feedbackIsNeeded ∧ c.feedbackRequested = true)

instance (c : RSbusConnection) : Decidable (NoHandoff c) := by
  unfold NoHandoff; infer_instance

/-- FIFO effect of one send8bits loop iteration, iterated k times. -/
def pushPairLoop (f : FIFO) (b1 b2 : Nat) : Nat → FIFO
  | 0 => f
  | k + 1 => pushPairLoop ((f.push b1).push b2) b1 b2 k

/-! ### Decoding (reference recombination rule of the specification) -/

/-- Payload read back from a wire byte by reversing bits 4..7 (payload bit i
is wire bit 7-i). -/
def decodePayload (b : Nat) : Nat :=
  (if b.testBit 7 then 1 else 0) + (if b.testBit 6 then 2 else 0) +
  (if b.testBit 5 then 4 else 0) + (if b.testBit 4 then 8 else 0)

/-- Places the decoded payload according to the byte's bit-3 nibble
selector: high nibble when set, low nibble when clear. -/
def placeNibble (b : Nat) : Nat :=
  if b.testBit 3 then 16 * decodePayload b else decodePayload b

/-- Recombination of two wire bytes per the bit-3 selectors. -/
def decode2 (b1 b2 : Nat) : Nat := placeNibble b1 + placeNibble b2

/-- Wire layout actually produced by the encoder: payload bit i on wire bit
7-i, nibble selector on bit 3, TT bits (bit2,bit1) = (1,0) for Switch and
(0,1) for Feedback, and the parity bit 0 chosen so that the total number of
set bits in bits 0..7 is odd. -/
def WireLayoutOdd (t : Decoder_t) (v : Nat) : Prop :=
  (∀ i, i < 4 →
    (formatByte t (dataNibble1 v)).testBit (7 - i) = v.testBit i ∧
    (formatByte t (dataNibble2 v)).testBit (7 - i) = v.testBit (4 + i)) ∧
  (formatByte t (dataNibble1 v)).testBit 3 = false ∧
  (formatByte t (dataNibble2 v)).testBit 3 = true ∧
  ((formatByte t (dataNibble1 v)).testBit 2, (formatByte t (dataNibble1 v)).testBit 1)
    = (if t = Decoder_t.Switch then (true, false) else (false, true)) ∧
  ((formatByte t (dataNibble2 v)).testBit 2, (formatByte t (dataNibble2 v)).testBit 1)
    = (if t = Decoder_t.Switch then (true, false) else (false, true)) ∧
  popcount8 (formatByte t (dataNibble1 v)) % 2 = 1 ∧
  popcount8 (formatByte t (dataNibble2 v)) % 2 = 1

instance (t : Decoder_t) (v : Nat) : Decidable (WireLayoutOdd t v) := by
  unfold WireLayoutOdd; infer_instance

/-! ### Concrete states used by the witnesses -/

/-- A concrete shared state: signal valid, nothing staged. -/
def sW : SysState :=
  { rsSignalIsOK := true, parityErrors := 0, pulseCountErrors := 0,
    parityErrorHandling := 1, pulseCountErrorHandling := 2,
    data2sendFlag := false, data2send := 0, address2use := 0,
    data4IsrFlag := true, dataWasSendFlag := false,
    flagPulseCount := false, flagParity := false,
    timeIdle := 0, lastPulseCnt := 0, addressPolled := 0 }

/-- A concrete connection at address 1 with one queued byte. -/
def cW : RSbusConnection :=
  { address := 1, type := Decoder_t.Feedback, status := Status.connected,
    feedbackRequested := false, forwardErrorCorrection := 0,
    my_fifo := FIFO.init.push 0x13 }

/-! ### List helper lemmas -/

theorem List_getD_set_ne (l : List Nat) (i j x d : Nat) (hij : i ≠ j) :
    (l.set i x).getD j d = l.getD j d := by
  induction l generalizing i j with
  | nil => simp
  | cons a t ih =>
    cases i with
    | zero =>
      cases j with
      | zero => exact absurd rfl hij
      | succ j => simp [List.getD_cons_succ]
    | succ i =>
      cases j with
      | zero => simp [List.getD_cons_zero]
      | succ j => simpa [List.getD_cons_succ] using ih i j (by omega)

theorem List_getD_set_self (l : List Nat) (i x d : Nat) (h : i < l.length) :
    (l.set i x).getD i d = x := by
  induction l generalizing i with
  | nil => simp at h
  | cons a t ih =>
    cases i with
    | zero => rfl
    | succ i => simpa [List.getD_cons_succ] using ih i (by simpa using h)

/-! ### FIFO invariant lemmas -/

theorem FIFO.wf_init : FIFO.init.WellFormed := by decide

theorem FIFO.wf_push (f : FIFO) (wf : f.WellFormed) (d : Nat) : (f.push d).WellFormed := by
  obtain ⟨hlen, hle, hh, ht, h0, h1⟩ := wf
  unfold FIFO.WellFormed FIFO_SIZE at *
  unfold FIFO.push FIFO_SIZE
  split
  · exact ⟨hlen, hle, hh, ht, h0, h1⟩
  · rename_i hne
    dsimp only
    refine ⟨by simp [hlen], by omega, by omega, ?_, by intro h; omega, ?_⟩
    · split <;> omega
    · intro _
      split <;> omega

theorem FIFO.wf_pop (f : FIFO) (wf : f.WellFormed) : (f.pop).2.WellFormed := by
  obtain ⟨hlen, hle, hh, ht, h0, h1⟩ := wf
  unfold FIFO.WellFormed FIFO_SIZE at *
  unfold FIFO.pop FIFO_SIZE
  split
  · exact ⟨hlen, hle, hh, ht, h0, h1⟩
  · rename_i hne
    dsimp only
    have h1' := h1 (by omega)
    refine ⟨hlen, by omega, ?_, ht, ?_, ?_⟩
    · split <;> omega
    · intro hz
      rw [if_neg (by omega)]
      omega
    · intro hz
      rw [if_pos (by omega)]
      omega

theorem FIFO.wf_empty (f : FIFO) (wf : f.WellFormed) : f.empty.WellFormed := by
  obtain ⟨hlen, -, -, -, -, -⟩ := wf
  exact ⟨hlen, by simp [FIFO.empty, FIFO_SIZE], by simp [FIFO.empty, FIFO_SIZE],
    by simp [FIFO.empty, FIFO_SIZE], fun _ => rfl, by simp [FIFO.empty]⟩

theorem FIFO.reachable_wf (f : FIFO) (h : f.Reachable) : f.WellFormed := by
  induction h with
  | init => exact FIFO.wf_init
  | push g d _ ih => exact FIFO.wf_push g ih d
  | pop g _ ih => exact FIFO.wf_pop g ih
  | empty g _ ih => exact FIFO.wf_empty g ih

theorem FIFO.push_full (f : FIFO) (h : f.numElements = FIFO_SIZE) (d : Nat) :
    f.push d = f := by
  unfold FIFO.push
  simp [h]

theorem FIFO.push_numElements (f : FIFO) (h : f.numElements ≠ FIFO_SIZE) (d : Nat) :
    (f.push d).numElements = f.numElements + 1 := by
  unfold FIFO.push
  simp [h]

theorem FIFO.push_toList (f : FIFO) (wf : f.WellFormed) (h : f.numElements < FIFO_SIZE)
    (d : Nat) : (f.push d).toList = f.toList ++ [d] := by
  obtain ⟨hlen, hle, hh, ht, h0, h1⟩ := wf
  have htl : ∀ g : FIFO, g.toList =
      (List.range g.numElements).map (fun i => g.buffer.getD ((g.head + i) % FIFO_SIZE) 0) :=
    fun g => rfl
  unfold FIFO.push
  rw [if_neg (by omega)]
  simp only [htl]
  -- the slot written by push
  have hslot : (if 1 < f.numElements + 1 then (f.tail + 1) % FIFO_SIZE else f.tail)
      = (f.head + f.numElements) % FIFO_SIZE := by
    unfold FIFO_SIZE at *
    split <;> omega
  rw [hslot, List.range_succ, List.map_append]
  congr 1
  · apply List.map_congr_left
    intro i hi
    have hi' : i < f.numElements := List.mem_range.mp hi
    exact List_getD_set_ne _ _ _ _ _ (by unfold FIFO_SIZE at *; omega)
  · simp only [List.map_cons, List.map_nil]
    congr 1
    exact List_getD_set_self _ _ _ _ (by unfold FIFO_SIZE at *; omega)

theorem FIFO.pop_toList (f : FIFO) (wf : f.WellFormed) (h : 0 < f.numElements) :
    (f.pop).1 = f.toList.headD 0 ∧ (f.pop).2.toList = f.toList.tail ∧
      (f.pop).2.numElements = f.numElements - 1 := by
  obtain ⟨hlen, hle, hh, ht, h0, h1⟩ := wf
  obtain ⟨n, hn⟩ : ∃ n, f.numElements = n + 1 := ⟨f.numElements - 1, by omega⟩
  have htl : ∀ g : FIFO, g.toList =
      (List.range g.numElements).map (fun i => g.buffer.getD ((g.head + i) % FIFO_SIZE) 0) :=
    fun g => rfl
  unfold FIFO.pop
  rw [if_neg (by omega)]
  refine ⟨?_, ?_, by simp⟩
  · simp only [htl, hn, List.range_succ_eq_map, List.map_cons, List.headD_cons]
    have : (f.head + 0) % FIFO_SIZE = f.head := by unfold FIFO_SIZE at *; omega
    rw [this]
  · simp only [htl, hn, List.range_succ_eq_map, List.map_cons, List.tail_cons, List.map_map]
    apply List.map_congr_left
    intro i hi
    have hi' : i < n := List.mem_range.mp hi
    simp only [Function.comp]
    congr 1
    unfold FIFO_SIZE at *
    split <;> omega

/-! ### send8bits loop lemma -/

theorem format_nibble_fields (c : RSbusConnection) (v : Nat) :
    (format_nibble c v).my_fifo = c.my_fifo.push (formatByte c.type v) ∧
    (format_nibble c v).feedbackRequested = c.feedbackRequested ∧
    (format_nibble c v).type = c.type ∧
    (format_nibble c v).status = c.status ∧
    (format_nibble c v).address = c.address := by
  exact ⟨rfl, rfl, rfl, rfl, rfl⟩

theorem sendLoop_my_fifo (n1 n2 : Nat) :
    ∀ (k : Nat) (c : RSbusConnection),
      (sendLoop c n1 n2 k).my_fifo
        = pushPairLoop c.my_fifo (formatByte c.type n1) (formatByte c.type n2) k := by
  intro k
  induction k with
  | zero => intro c; rfl
  | succ k ih => intro c; exact ih (format_nibble (format_nibble c n1) n2)

theorem sendLoop_other_fields (n1 n2 : Nat) :
    ∀ (k : Nat) (c : RSbusConnection),
      (sendLoop c n1 n2 k).feedbackRequested = c.feedbackRequested ∧
      (sendLoop c n1 n2 k).type = c.type ∧
      (sendLoop c n1 n2 k).status = c.status ∧
      (sendLoop c n1 n2 k).address = c.address := by
  intro k
  induction k with
  | zero => intro c; exact ⟨rfl, rfl, rfl, rfl⟩
  | succ k ih => intro c; exact ih (format_nibble (format_nibble c n1) n2)

theorem pushPairLoop_spec (b1 b2 : Nat) :
    ∀ (k : Nat) (f : FIFO), f.WellFormed → f.numElements + 2 * k ≤ FIFO_SIZE →
      (pushPairLoop f b1 b2 k).toList
          = f.toList ++ (List.replicate k [b1, b2]).flatten ∧
      (pushPairLoop f b1 b2 k).numElements = f.numElements + 2 * k ∧
      (pushPairLoop f b1 b2 k).WellFormed := by
  intro k
  induction k with
  | zero =>
    intro f wf _
    exact ⟨by simp [pushPairLoop], by simp [pushPairLoop], wf⟩
  | succ k ih =>
    intro f wf room
    have hsz : f.numElements < FIFO_SIZE := by unfold FIFO_SIZE at *; omega
    have wf1 : (f.push b1).WellFormed := FIFO.wf_push _ wf _
    have hn1 : (f.push b1).numElements = f.numElements + 1 :=
      FIFO.push_numElements _ (by omega) _
    have hsz1 : (f.push b1).numElements < FIFO_SIZE := by unfold FIFO_SIZE at *; omega
    have wf2 : ((f.push b1).push b2).WellFormed := FIFO.wf_push _ wf1 _
    have hn2 : ((f.push b1).push b2).numElements = f.numElements + 2 := by
      rw [FIFO.push_numElements _ (by omega) _, hn1]
    have hl2 : ((f.push b1).push b2).toList = f.toList ++ [b1, b2] := by
      rw [FIFO.push_toList _ wf1 hsz1 _, FIFO.push_toList _ wf hsz _, List.append_assoc]
      rfl
    have room' : ((f.push b1).push b2).numElements + 2 * k ≤ FIFO_SIZE := by
      rw [hn2]; omega
    obtain ⟨il, inum, iwf⟩ := ih ((f.push b1).push b2) wf2 room'
    have hstep : pushPairLoop f b1 b2 (k + 1) = pushPairLoop ((f.push b1).push b2) b1 b2 k := rfl
    refine ⟨?_, ?_, hstep ▸ iwf⟩
    · rw [hstep, il, hl2, List.replicate_succ, List.flatten_cons, List.append_assoc]
    · rw [hstep, inum, hn2]
      omega

/-! ### triggerRetransmission in closed form -/

theorem triggerRetransmission_eq (s : SysState) (strategy : Nat) (jt : Bool) :
    triggerRetransmission s strategy jt =
      { s with
        rsSignalIsOK := s.rsSignalIsOK && !(strategy == 2 || (strategy == 1 && jt)),
        data4IsrFlag :=
          (s.rsSignalIsOK && !(strategy == 2 || (strategy == 1 && jt))) && s.data4IsrFlag } := by
  obtain ⟨ok, f2, f3, f4, f5, f6, f7, f8, d4, f10, f11, f12, f13, f14, f15⟩ := s
  rcases strategy with _ | _ | _ | n <;> cases jt <;> cases ok <;> cases d4 <;>
    simp [triggerRetransmission]

/-! ### Claim C1 -/

/-- Claim C1 counterexample: encoding value 0x96 with type Feedback yields
the low-nibble wire byte 0x62, not 0x63, and that byte has an odd, not even,
number of set bits in bits 0..7 (the code keeps the parity bit clear exactly
when `parity_even_bit` reports an odd count). -/
theorem claim_C1_counterexample :
    formatByte Decoder_t.Feedback (dataNibble1 0x96) = 0x62 ∧
    formatByte Decoder_t.Feedback (dataNibble1 0x96) ≠ 0x63 ∧
    popcount8 (formatByte Decoder_t.Feedback (dataNibble1 0x96)) % 2 = 1 := by
  decide

/-- Claim C1 (amended): for every 8-bit value and decoder type the encoder
produces wire bytes with payload bit i on wire bit 7-i, the nibble selector
on bit 3, TT bits (bit2,bit1) = (1,0) for Switch and (0,1) for Feedback, and
the parity bit chosen so the total number of set bits in bits 0..7 is odd;
value 0x96 with type Feedback yields 0x62 as the low-nibble wire byte. -/
theorem claim_C1_amended (v : Nat) (hv : v < 256) (t : Decoder_t) :
    WireLayoutOdd t v ∧ formatByte Decoder_t.Feedback (dataNibble1 0x96) = 0x62 := by
  have hS : ∀ w, w < 256 → WireLayoutOdd Decoder_t.Switch w := by decide
  have hF : ∀ w, w < 256 → WireLayoutOdd Decoder_t.Feedback w := by decide
  cases t
  · exact ⟨hS v hv, by decide⟩
  · exact ⟨hF v hv, by decide⟩

theorem claim_C1_witness :
    WireLayoutOdd Decoder_t.Feedback 0x96 ∧
    formatByte Decoder_t.Feedback (dataNibble1 0x96) = 0x62 :=
  claim_C1_amended 0x96 (by decide) Decoder_t.Feedback

/-! ### Claim C7 -/

/-- Claim C7: for every 8-bit value, the two wire bytes produced by send8bits
(low nibble first, then high nibble) decode back to the value when the
reversed bits 4..7 of each byte are recombined according to each byte's
bit-3 nibble selector. -/
theorem claim_C7 (v : Nat) (hv : v < 256) (t : Decoder_t) :
    (formatByte t (dataNibble1 v)).testBit 3 = false ∧
    (formatByte t (dataNibble2 v)).testBit 3 = true ∧
    decode2 (formatByte t (dataNibble1 v)) (formatByte t (dataNibble2 v)) = v := by
  have hS : ∀ w, w < 256 →
      (formatByte Decoder_t.Switch (dataNibble1 w)).testBit 3 = false ∧
      (formatByte Decoder_t.Switch (dataNibble2 w)).testBit 3 = true ∧
      decode2 (formatByte Decoder_t.Switch (dataNibble1 w))
        (formatByte Decoder_t.Switch (dataNibble2 w)) = w := by decide
  have hF : ∀ w, w < 256 →
      (formatByte Decoder_t.Feedback (dataNibble1 w)).testBit 3 = false ∧
      (formatByte Decoder_t.Feedback (dataNibble2 w)).testBit 3 = true ∧
      decode2 (formatByte Decoder_t.Feedback (dataNibble1 w))
        (formatByte Decoder_t.Feedback (dataNibble2 w)) = w := by decide
  cases t
  · exact hS v hv
  · exact hF v hv

theorem claim_C7_witness :
    (formatByte Decoder_t.Feedback (dataNibble1 0x96)).testBit 3 = false ∧
    (formatByte Decoder_t.Feedback (dataNibble2 0x96)).testBit 3 = true ∧
    decode2 (formatByte Decoder_t.Feedback (dataNibble1 0x96))
      (formatByte Decoder_t.Feedback (dataNibble2 0x96)) = 0x96 :=
  claim_C7 0x96 (by decide) Decoder_t.Feedback

/-! ### Claim C9 -/

/-- Claim C9: for every reachable FIFO state, the head and tail indices (the
positions read and written by pop and push, including the position a push
would write next) stay below the 16-byte capacity, and a push onto a full
queue returns the state unchanged. -/
theorem claim_C9 (f : FIFO) (h : f.Reachable) (d : Nat) :
    f.head < FIFO_SIZE ∧ f.tail < FIFO_SIZE ∧
    (f.push d).tail < FIFO_SIZE ∧ (f.pop).2.head < FIFO_SIZE ∧
    (f.numElements = FIFO_SIZE → f.push d = f) := by
  have wf := FIFO.reachable_wf f h
  have wfp := FIFO.wf_push f wf d
  have wfq := FIFO.wf_pop f wf
  exact ⟨wf.2.2.1, wf.2.2.2.1, wfp.2.2.2.1, wfq.2.2.1,
    fun hfull => FIFO.push_full f hfull d⟩

theorem claim_C9_witness :
    FIFO.init.head < FIFO_SIZE ∧ FIFO.init.tail < FIFO_SIZE ∧
    (FIFO.init.push 7).tail < FIFO_SIZE ∧ (FIFO.init.pop).2.head < FIFO_SIZE ∧
    (FIFO.init.numElements = FIFO_SIZE → FIFO.init.push 7 = FIFO.init) :=
  claim_C9 FIFO.init FIFO.Reachable.init 7

/-! ### Claim C10 -/

/-- Claim C10: pop on an empty FIFO returns the byte 0 and leaves the whole
state (head, tail, element count, buffer) unchanged, indistinguishable from
popping a stored 0x00 byte. -/
theorem claim_C10 (f : FIFO) (h : f.numElements = 0) : f.pop = (0, f) := by
  unfold FIFO.pop
  rw [if_pos h]

theorem claim_C10_witness : FIFO.init.pop = (0, FIFO.init) :=
  claim_C10 FIFO.init rfl

/-! ### Claim C5 -/

/-- Claim C5: RetransmissionPolicy evaluation: strategy 0 never clears
`rsSignalIsOK`; strategy 1 clears it exactly when `justTransmitted` holds;
strategy 2 always clears it; and whenever the call ends with the flag
cleared it also cancels the byte staged for the ISR in the same call. -/
theorem claim_C5 (s : SysState) (strategy : Nat) (jt : Bool) :
    (strategy = 0 → (triggerRetransmission s strategy jt).rsSignalIsOK = s.rsSignalIsOK) ∧
    (strategy = 1 →
      (triggerRetransmission s strategy jt).rsSignalIsOK = (s.rsSignalIsOK && !jt)) ∧
    (strategy = 2 → (triggerRetransmission s strategy jt).rsSignalIsOK = false) ∧
    ((triggerRetransmission s strategy jt).rsSignalIsOK = false →
      (triggerRetransmission s strategy jt).data4IsrFlag = false) := by
  rw [triggerRetransmission_eq]
  refine ⟨?_, ?_, ?_, ?_⟩
  · intro h
    subst h
    cases s.rsSignalIsOK <;> simp
  · intro h
    subst h
    cases s.rsSignalIsOK <;> cases jt <;> simp
  · intro h
    subst h
    simp
  · intro h
    dsimp only at h ⊢
    rw [h]
    simp

theorem claim_C5_witness :
    (triggerRetransmission sW 1 true).rsSignalIsOK = false ∧
    (triggerRetransmission sW 1 true).data4IsrFlag = false := by
  have h := claim_C5 sW 1 true
  revert h
  decide

/-! ### Claim C6 -/

/-- Claim C6: sendNibble returns 1 exactly when the queue is non-empty, no
byte is staged and the address is in 1..128; on success it pops the oldest
queued byte and stages it tagged with the connection's own address; on
failure it returns 0 and leaves everything unchanged. -/
theorem claim_C6 (c : RSbusConnection) (s : SysState) :
    ((sendNibble c s).1 = 1 ↔
      (0 < c.my_fifo.size ∧ s.data2sendFlag = false ∧
        0 < c.address ∧ c.address ≤ 128)) ∧
    ((sendNibble c s).1 = 1 →
      (sendNibble c s).2.1 = { c with my_fifo := (c.my_fifo.pop).2 } ∧
      (sendNibble c s).2.2
        = { s with
            address2use := c.address, data2send := (c.my_fifo.pop).1,
            data2sendFlag := true } ∧
      (c.my_fifo.WellFormed →
        (sendNibble c s).2.2.data2send = c.my_fifo.toList.headD 0 ∧
        (sendNibble c s).2.1.my_fifo.toList = c.my_fifo.toList.tail)) ∧
    ((sendNibble c s).1 ≠ 1 → sendNibble c s = (0, c, s)) := by
  unfold sendNibble
  split
  · rename_i h1
    split
    · rename_i h2
      split
      · rename_i h3
        dsimp only
        refine ⟨by simp [h1, h2, h3], ?_, by simp⟩
        intro _
        refine ⟨rfl, rfl, ?_⟩
        intro wf
        have hp := FIFO.pop_toList c.my_fifo wf h1
        exact ⟨hp.1, hp.2.1⟩
      · rename_i h3
        dsimp only
        refine ⟨by simp [h3], by simp, fun _ => rfl⟩
    · rename_i h2
      dsimp only
      refine ⟨by simp [h2], by simp, fun _ => rfl⟩
  · rename_i h1
    dsimp only
    refine ⟨by simp [h1], by simp, fun _ => rfl⟩

theorem claim_C6_witness :
    (sendNibble cW sW).1 = 1 ∧
    (sendNibble cW sW).2.2.data2send = 0x13 ∧
    (sendNibble cW sW).2.2.address2use = 1 ∧
    (sendNibble cW sW).2.1.my_fifo.size = 0 := by
  have h := claim_C6 cW sW
  revert h
  decide

/-! ### Claim C8 -/

/-- Claim C8: with at least 2·(forwardErrorCorrection+1) free queue slots,
send8bits (the supplyFeedback operation) appends exactly
forwardErrorCorrection+1 copies of each of the two encoded nibbles to the
queue (2·(forwardErrorCorrection+1) bytes in total) and clears
`feedbackRequested`. -/
theorem claim_C8 (c : RSbusConnection) (v : Nat) (wf : c.my_fifo.WellFormed)
    (room : c.my_fifo.numElements + 2 * (c.forwardErrorCorrection + 1) ≤ FIFO_SIZE) :
    (send8bits c v).my_fifo.toList
        = c.my_fifo.toList ++
          (List.replicate (c.forwardErrorCorrection + 1)
            [formatByte c.type (dataNibble1 v), formatByte c.type (dataNibble2 v)]).flatten ∧
    (send8bits c v).my_fifo.size = c.my_fifo.size + 2 * (c.forwardErrorCorrection + 1) ∧
    (send8bits c v).feedbackRequested = false := by
  have hfifo := sendLoop_my_fifo (dataNibble1 v) (dataNibble2 v)
    (c.forwardErrorCorrection + 1) { c with feedbackRequested := false }
  have hother := sendLoop_other_fields (dataNibble1 v) (dataNibble2 v)
    (c.forwardErrorCorrection + 1) { c with feedbackRequested := false }
  have hspec := pushPairLoop_spec (formatByte c.type (dataNibble1 v))
    (formatByte c.type (dataNibble2 v)) (c.forwardErrorCorrection + 1) c.my_fifo wf room
  unfold send8bits
  refine ⟨?_, ?_, ?_⟩
  · rw [hfifo]
    exact hspec.1
  · show (sendLoop _ _ _ _).my_fifo.numElements = c.my_fifo.numElements + _
    rw [hfifo]
    exact hspec.2.1
  · exact hother.1

theorem claim_C8_witness :
    (send8bits { cW with forwardErrorCorrection := 2, my_fifo := FIFO.init } 0x96).my_fifo.size
        = 6 ∧
    (send8bits { cW with forwardErrorCorrection := 2, my_fifo := FIFO.init } 0x96).feedbackRequested
        = false := by
  have h := claim_C8 { cW with forwardErrorCorrection := 2, my_fifo := FIFO.init } 0x96
    (by decide) (by decide)
  revert h
  decide

/-! ### Claim C3 -/

/-- Claim C3: at a 2ms check with unchanged pulse count that reaches
idleTicks = 3, the retransmission flags are snapshotted from
`dataWasSendFlag` which is cleared; a snapshot of 130 sets `rsSignalIsOK`
and marks a queued byte ready for the ISR; any other snapshot increments
`pulseCountErrors` and evaluates the pulse-count policy only when
`rsSignalIsOK` was already set; both branches reset the pulse count and the
last sample to 0. -/
theorem claim_C3 (s : SysState) (hEq : s.addressPolled = s.lastPulseCnt)
    (hT : s.timeIdle = 2) :
    ((resetAddressPolled s).flagPulseCount = s.dataWasSendFlag ∧
      (resetAddressPolled s).flagParity = s.dataWasSendFlag ∧
      (resetAddressPolled s).dataWasSendFlag = false) ∧
    (s.addressPolled = 130 →
      (resetAddressPolled s).rsSignalIsOK = true ∧
      (s.data2sendFlag = true → (resetAddressPolled s).data4IsrFlag = true) ∧
      (resetAddressPolled s).pulseCountErrors = s.pulseCountErrors) ∧
    (s.addressPolled ≠ 130 → s.rsSignalIsOK = true →
      (resetAddressPolled s).pulseCountErrors = (s.pulseCountErrors + 1) % 256 ∧
      (resetAddressPolled s).rsSignalIsOK
        = !(s.pulseCountErrorHandling == 2
            || (s.pulseCountErrorHandling == 1 && s.dataWasSendFlag))) ∧
    (s.addressPolled ≠ 130 → s.rsSignalIsOK = false →
      (resetAddressPolled s).pulseCountErrors = s.pulseCountErrors ∧
      (resetAddressPolled s).rsSignalIsOK = false) ∧
    ((resetAddressPolled s).addressPolled = 0 ∧
      (resetAddressPolled s).lastPulseCnt = 0) := by
  obtain ⟨ok, pe, pce, peh, pceh, d2f, d2s, a2u, d4, dws, fpc, fpar, ti, lpc, ap⟩ := s
  dsimp only at hEq hT ⊢
  subst hT
  subst hEq
  by_cases h130 : ap = 130 <;> cases ok <;> cases d2f <;>
    simp [resetAddressPolled, triggerRetransmission_eq, h130]

theorem claim_C3_witness :
    ((resetAddressPolled { sW with timeIdle := 2, addressPolled := 130, lastPulseCnt := 130 }).rsSignalIsOK
        = true) ∧
    ((resetAddressPolled { sW with timeIdle := 2, addressPolled := 130, lastPulseCnt := 130 }).addressPolled
        = 0) ∧
    ((resetAddressPolled { sW with timeIdle := 2, addressPolled := 130, lastPulseCnt := 130 }).lastPulseCnt
        = 0) := by
  have h := claim_C3 { sW with timeIdle := 2, addressPolled := 130, lastPulseCnt := 130 } rfl rfl
  revert h
  decide

/-! ### Claim C2 -/

/-- Claim C2: in a silent run, the check that reaches idleTicks = 5 with
`rsSignalIsOK` set increments `parityErrors` and evaluates the parity policy
with the snapshotted justTransmitted flag; the check that reaches
idleTicks = 7 decrements `parityErrors` when `rsSignalIsOK` was still set,
clears `rsSignalIsOK` and cancels the byte staged for the ISR; a completed
tick 4 → 7 sequence whose policy evaluation does not clear the signal leaves
`parityErrors` with no net change. -/
theorem claim_C2 (s : SysState) (hEq : s.addressPolled = s.lastPulseCnt) :
    (s.timeIdle = 4 → s.rsSignalIsOK = true →
      (resetAddressPolled s).parityErrors = (s.parityErrors + 1) % 256 ∧
      (resetAddressPolled s).rsSignalIsOK
        = !(s.parityErrorHandling == 2 || (s.parityErrorHandling == 1 && s.flagParity)) ∧
      ((resetAddressPolled s).rsSignalIsOK = false →
        (resetAddressPolled s).data4IsrFlag = false)) ∧
    (s.timeIdle = 6 →
      (s.rsSignalIsOK = true →
        (resetAddressPolled s).parityErrors = (s.parityErrors + 255) % 256) ∧
      (s.rsSignalIsOK = false →
        (resetAddressPolled s).parityErrors = s.parityErrors) ∧
      (resetAddressPolled s).rsSignalIsOK = false ∧
      (resetAddressPolled s).data4IsrFlag = false) ∧
    (s.timeIdle = 4 → s.rsSignalIsOK = true → s.parityErrors < 256 →
      (s.parityErrorHandling == 2 || (s.parityErrorHandling == 1 && s.flagParity)) = false →
      (resetAddressPolled (resetAddressPolled (resetAddressPolled s))).parityErrors
          = s.parityErrors ∧
      (resetAddressPolled (resetAddressPolled (resetAddressPolled s))).rsSignalIsOK = false ∧
      (resetAddressPolled (resetAddressPolled (resetAddressPolled s))).data4IsrFlag = false) := by
  obtain ⟨ok, pe, pce, peh, pceh, d2f, d2s, a2u, d4, dws, fpc, fpar, ti, lpc, ap⟩ := s
  dsimp only at hEq ⊢
  subst hEq
  refine ⟨?_, ?_, ?_⟩
  · intro hT hok
    subst hT
    subst hok
    cases hA : (peh == 2 || (peh == 1 && fpar)) <;>
      simp [resetAddressPolled, triggerRetransmission_eq, hA]
  · intro hT
    subst hT
    cases ok <;> simp [resetAddressPolled]
  · intro hT hok hlt hpol
    subst hT
    subst hok
    simp [resetAddressPolled, triggerRetransmission_eq, hpol]
    omega

theorem claim_C2_witness :
    ((resetAddressPolled (resetAddressPolled (resetAddressPolled { sW with timeIdle := 4 }))).parityErrors
        = 0) ∧
    ((resetAddressPolled (resetAddressPolled (resetAddressPolled { sW with timeIdle := 4 }))).rsSignalIsOK
        = false) ∧
    ((resetAddressPolled (resetAddressPolled (resetAddressPolled { sW with timeIdle := 4 }))).data4IsrFlag
        = false) := by
  obtain ⟨-, -, h3⟩ := claim_C2 { sW with timeIdle := 4 } rfl
  exact h3 rfl rfl (by decide) (by decide)

/-! ### Claim C4 -/

theorem noHandoff_step (c : RSbusConnection) (s : SysState) (h : NoHandoff c) :
    NoHandoff (checkConnection c s).1 ∧
    ((checkConnection c s).2.data2sendFlag = true → s.data2sendFlag = true) := by
  cases hb : s.rsSignalIsOK
  · simp [checkConnection, NoHandoff, hb]
  · rcases h with h1 | ⟨h1, h2⟩
    · simp [checkConnection, NoHandoff, h1, hb]
    · simp [checkConnection, NoHandoff, h1, h2, hb]

theorem noHandoff_run (bs : List Bool) :
    ∀ (c : RSbusConnection) (s : SysState), NoHandoff c →
      NoHandoff (runConnection c s bs).1 ∧
      ((runConnection c s bs).2.data2sendFlag = true → s.data2sendFlag = true) := by
  induction bs with
  | nil => intro c s h; exact ⟨h, fun hh => hh⟩
  | cons b bs ih =>
    intro c s h
    have hstep := noHandoff_step c { s with rsSignalIsOK := b } h
    obtain ⟨ih1, ih2⟩ := ih _ _ hstep.1
    exact ⟨ih1, fun hh => hstep.2 (ih2 hh)⟩

/-- Claim C4: with `rsSignalIsOK` false every checkConnection call forces the
state to notSynchronised, empties the queue and cancels the staged byte;
with the signal back, a notSynchronised connection first raises
`feedbackRequested` without touching the shared state, and from any state
that still awaits send8bits no sequence of checkConnection calls (under any
signal values) ever stages a byte. -/
theorem claim_C4 (c : RSbusConnection) (s : SysState) (bs : List Bool) :
    (s.rsSignalIsOK = false →
      (checkConnection c s).1.status = Status.notSynchronised ∧
      (checkConnection c s).1.my_fifo.size = 0 ∧
      (checkConnection c s).2.data2sendFlag = false) ∧
    (s.rsSignalIsOK = true → c.status = Status.notSynchronised →
      (checkConnection c s).1.feedbackRequested = true ∧
      (checkConnection c s).1.status = Status.feedbackIsNeeded ∧
      (checkConnection c s).2 = s) ∧
    (NoHandoff c →
      NoHandoff (runConnection c s bs).1 ∧
      ((runConnection c s bs).2.data2sendFlag = true → s.data2sendFlag = true)) := by
  refine ⟨?_, ?_, fun h => noHandoff_run bs c s h⟩
  · intro hb
    simp [checkConnection, hb, FIFO.size, FIFO.empty]
  · intro hb h1
    simp [checkConnection, hb, h1]

theorem claim_C4_witness :
    ((checkConnection { cW with status := Status.notSynchronised } { sW with rsSignalIsOK := false }).1.status
        = Status.notSynchronised) ∧
    ((checkConnection { cW with status := Status.notSynchronised } { sW with rsSignalIsOK := false }).1.my_fifo.size
        = 0) ∧
    ((runConnection { cW with status := Status.notSynchronised } sW [true, true, false, true]).2.data2sendFlag
        = true → False) := by
  have h := claim_C4 { cW with status := Status.notSynchronised } { sW with rsSignalIsOK := false }
    [true, true, false, true]
  have h2 := claim_C4 { cW with status := Status.notSynchronised } sW [true, true, false, true]
  obtain ⟨ha, -, -⟩ := h
  obtain ⟨-, -, hc⟩ := h2
  obtain ⟨w1, w2, -⟩ := ha rfl
  refine ⟨w1, w2, ?_⟩
  intro hh
  have := (hc (Or.inl rfl)).2 hh
  revert this
  decide

end RSbus
